import Mathlib

/-!
Shallow embedding of the simulation core of "Ordinary Defense 2" (game.js).

Conventions of the embedding:
* JS numbers are embedded as exact rationals (`ℚ`) for geometry and as `ℤ`/`ℕ`
  for counters, money and timestamps.
* `BABYLON.Vector3.Distance(a,b) < c` is embedded as `distSq a b < c ^ 2`,
  which is equivalent for the nonnegative radii the program uses, and exact
  over `ℚ` (no square roots needed).
* `Vector3.normalize` divides by the Euclidean norm; the norm is embedded via
  an exact rational square root (`ratSqrt`), which agrees with the real
  square root exactly whenever the squared norm is the square of a rational
  (true for every concrete input used below).
* Asynchronous model loading always succeeds and is modelled synchronously;
  rendering, audio and particle systems are reduced to an `Effect` event list.
* Object references (projectile → target enemy) become enemy ids; an id that
  is no longer present in the registry plays the role of a disposed mesh.
-/

set_option allowUnsafeReducibility true in
attribute [semireducible] Rat.add Rat.mul Rat.sub Rat.inv Rat.ofScientific

namespace OrdinaryDefense

/-- Newton iteration for the integer square root, structurally recursive on
a fuel argument (the fuel `n` passed below is always sufficient since the
guess strictly decreases until it stabilizes at `⌊√n⌋`). -/
def isqrtAux : ℕ → ℕ → ℕ → ℕ
  | 0, guess, _ => guess
  | fuel + 1, guess, n =>
    let next := (guess + n / guess) / 2
    if next < guess then isqrtAux fuel next n else guess

/-- Floor integer square root (Newton's method, kernel-computable). -/
def isqrt (n : ℕ) : ℕ := if n ≤ 1 then n else isqrtAux n (n / 2 + 1) n

/-- Square root on `ℚ`, exact whenever the argument is the square of a
rational: `√(n/d) = √n / √d` on the reduced representation. -/
def ratSqrt (q : ℚ) : ℚ := mkRat (isqrt q.num.toNat) (isqrt q.den)

/-- A 3-component vector with rational coordinates (BABYLON.Vector3). -/
structure Vec3 where
  x : ℚ
  y : ℚ
  z : ℚ
deriving DecidableEq, Repr

def Vec3.add (a b : Vec3) : Vec3 := ⟨a.x + b.x, a.y + b.y, a.z + b.z⟩

def Vec3.sub (a b : Vec3) : Vec3 := ⟨a.x - b.x, a.y - b.y, a.z - b.z⟩

def Vec3.scale (v : Vec3) (k : ℚ) : Vec3 := ⟨v.x * k, v.y * k, v.z * k⟩

/-- Squared Euclidean distance; `Distance(a,b) < c` is embedded as
`distSq a b < c ^ 2`. -/
def Vec3.distSq (a b : Vec3) : ℚ :=
  (a.x - b.x) ^ 2 + (a.y - b.y) ^ 2 + (a.z - b.z) ^ 2

/-- Squared Euclidean norm of a vector. -/
def Vec3.quad (v : Vec3) : ℚ := v.x ^ 2 + v.y ^ 2 + v.z ^ 2

/-- `Vector3.normalize()`: divide by the Euclidean norm.  `ratSqrt` is the
exact square root whenever `v.quad` is the square of a rational (true for
every concrete input used below). -/
def Vec3.normalize (v : Vec3) : Vec3 := v.scale (1 / ratSqrt v.quad)

/-- `BABYLON.Vector3.Lerp a b t = a + (b - a) * t`. -/
def lerp (a b : Vec3) (t : ℚ) : Vec3 := a.add ((b.sub a).scale t)

/-- The five purchasable kinds from `this.towerTypes` in game.js. -/
inductive TowerType where
  | basic
  | missile
  | laser
  | colony
  | playerAttack
deriving DecidableEq, Repr

/-- One entry of the `towerTypes` table: a cost, and combat statistics for
the three combat kinds (`colony` and `playerAttack` only carry a cost). -/
structure CombatStats where
  damage : ℕ
  range : ℚ
  fireRate : ℤ
deriving DecidableEq, Repr

structure ItemData where
  cost : ℕ
  combat : Option CombatStats
deriving DecidableEq, Repr

/-- The `towerTypes` table of game.js (rebalanced values). -/
def towerTypes : TowerType → ItemData
  | .basic => ⟨40, some ⟨25, 10, 900⟩⟩
  | .missile => ⟨85, some ⟨60, 12, 1400⟩⟩
  | .laser => ⟨130, some ⟨40, 18, 350⟩⟩
  | .colony => ⟨200, none⟩
  | .playerAttack => ⟨1000, none⟩

/-- A placed tower (the object built by `createTower`).  `target` holds the
id of the currently targeted enemy, if any. -/
structure Tower where
  pos : Vec3
  type : TowerType
  damage : ℕ
  range : ℚ
  fireRate : ℤ
  lastFired : ℤ
  target : Option ℕ
deriving DecidableEq, Repr

/-- An attacker (the record built by `spawnEnemy`).  `eid` stands for the JS
object identity; `target` is the index of the targeted tower in the tower
list (towers are never removed, so indices stay valid). -/
structure Enemy where
  eid : ℕ
  pos : Vec3
  health : ℤ
  maxHealth : ℤ
  speed : ℚ
  pathIndex : ℕ
  pathProgress : ℚ
  reward : ℕ
  lastShot : ℤ
  fireRate : ℤ
  range : ℚ
  target : Option ℕ
deriving DecidableEq, Repr

/-- A tower-fired projectile (`fireProjectile`).  `target` is the id of the
target enemy; an id no longer in the registry models a disposed mesh. -/
structure Projectile where
  pos : Vec3
  direction : Vec3
  speed : ℚ
  damage : ℕ
  target : ℕ
  life : ℕ
  type : TowerType
deriving DecidableEq, Repr

/-- An enemy-fired, purely cosmetic projectile (`fireEnemyProjectile`);
`target` is a tower index. -/
structure EnemyProjectile where
  pos : Vec3
  direction : Vec3
  speed : ℚ
  target : ℕ
  life : ℕ
deriving DecidableEq, Repr

/-- Fire-and-forget visual notifications emitted by the core
(`createHitParticles`, `createExplosionParticles`, `createEnemyBombParticles`). -/
inductive Effect where
  | hit (pos : Vec3)
  | explosion (pos : Vec3)
  | enemyBomb (pos : Vec3)
deriving DecidableEq, Repr

/-- The mutable game context of `TowerDefenseGame` (simulation fields only).
`nextEid` is the id supply standing for JS object identity of enemies. -/
structure GameState where
  gold : ℤ
  lives : ℤ
  score : ℕ
  wave : ℕ
  enemiesInWave : ℕ
  enemiesSpawned : ℕ
  selectedTowerType : TowerType
  gameStarted : Bool
  isPaused : Bool
  towers : List Tower
  enemies : List Enemy
  projectiles : List Projectile
  enemyProjectiles : List EnemyProjectile
  colonies : List Vec3
  path : List Vec3
  nextEid : ℕ
  effects : List Effect
deriving DecidableEq, Repr

/-- The constructor state of `TowerDefenseGame` (gold 600, lives 25, wave 0),
parametric in the level path installed by `createEnhancedPath`. -/
def initialState (path : List Vec3) : GameState :=
  { gold := 600
    lives := 25
    score := 0
    wave := 0
    enemiesInWave := 4
    enemiesSpawned := 0
    selectedTowerType := .basic
    gameStarted := false
    isPaused := false
    towers := []
    enemies := []
    projectiles := []
    enemyProjectiles := []
    colonies := []
    path := path
    nextEid := 0
    effects := [] }

/-- The waypoints of `createEnhancedPath` (every `y` is forced to 0.15). -/
def gamePath : List Vec3 :=
  [⟨-400, 0.15, 0⟩, ⟨-300, 0.15, 100⟩, ⟨-100, 0.15, 150⟩, ⟨100, 0.15, 100⟩,
   ⟨300, 0.15, 0⟩, ⟨400, 0.15, -100⟩, ⟨200, 0.15, -150⟩, ⟨0, 0.15, -100⟩,
   ⟨-200, 0.15, 0⟩, ⟨-300, 0.15, 100⟩, ⟨-100, 0.15, 150⟩, ⟨100, 0.15, 100⟩,
   ⟨300, 0.15, 0⟩, ⟨400, 0.15, -100⟩, ⟨200, 0.15, -150⟩, ⟨0, 0.15, -100⟩,
   ⟨-200, 0.15, 0⟩, ⟨-400, 0.15, 100⟩, ⟨-500, 0.15, 200⟩]

/-- The global `startNextWave()` function.  Its only guard is the pause
flag; it increments the wave, recomputes the wave size (capped at 25) and
resets the spawned counter. -/
def startNextWave (s : GameState) : GameState :=
  if s.isPaused then s
  else
    { s with
      wave := s.wave + 1
      enemiesInWave := min (3 + (s.wave + 1) * 2) 25
      enemiesSpawned := 0
      gameStarted := true }

/-- `togglePause()`. -/
def togglePause (s : GameState) : GameState := { s with isPaused := !s.isPaused }

/-- The range-bounded nearest-candidate scan shared by `updateTowers` and the
enemy shooting logic of `updateEnemies`: start with no target and a best
distance equal to the range, keep every strictly closer candidate.  Distances
are compared squared (exact over `ℚ`, equivalent for nonnegative radii). -/
def selectTarget (pos : Vec3) (range : ℚ) (cands : List (ℕ × Vec3)) :
    Option (ℕ × Vec3) :=
  (cands.foldl
    (fun (acc : Option (ℕ × Vec3) × ℚ) c =>
      if pos.distSq c.2 < acc.2 then (some c, pos.distSq c.2) else acc)
    (none, range ^ 2)).1

/-- The path-following step of `updateEnemies` for one enemy that has not yet
reached the final waypoint: advance the fractional progress, step the
waypoint index when progress reaches 1, and recompute the position (with
`y = 1`) unless the enemy is now at the final waypoint. -/
def moveEnemy (path : List Vec3) (e : Enemy) : Enemy :=
  let prog := e.pathProgress + e.speed
  let idx := if 1 ≤ prog then e.pathIndex + 1 else e.pathIndex
  let prog := if 1 ≤ prog then 0 else prog
  if idx < path.length - 1 then
    { e with
      pathIndex := idx
      pathProgress := prog
      pos := { lerp (path.getD idx ⟨0, 0, 0⟩) (path.getD (idx + 1) ⟨0, 0, 0⟩) prog
               with y := 1 } }
  else
    { e with pathIndex := idx, pathProgress := prog }

/-- `fireEnemyProjectile`: a cosmetic projectile from the enemy position
(raised by 0.5) toward the targeted tower, speed 1.5. -/
def mkEnemyProjectile (e : Enemy) (tpos : Vec3) (ti : ℕ) : EnemyProjectile :=
  let origin : Vec3 := { e.pos with y := e.pos.y + 0.5 }
  { pos := origin
    direction := Vec3.normalize (tpos.sub origin)
    speed := 1.5
    target := ti
    life := 0 }

/-- Accumulator for the reverse-order enemy loop of `updateEnemies`.
`kept` collects the surviving enemies (in original order, since the loop
runs over the reversed list and prepends). -/
structure EnemyAcc where
  kept : List Enemy
  gold : ℤ
  lives : ℤ
  score : ℕ
  newShots : List EnemyProjectile
deriving Repr

/-- The enemy shooting logic at the end of the `updateEnemies` loop body:
retarget to the closest in-range tower (by list index) and counter-fire when
the fire interval has elapsed.  Returns the updated enemy and the fired
cosmetic projectile, if any. -/
def retargetEnemy (towers : List Tower) (now : ℤ) (e : Enemy) :
    Enemy × Option EnemyProjectile :=
  match selectTarget e.pos e.range (towers.enum.map fun it => (it.1, it.2.pos)) with
  | none => ({ e with target := none }, none)
  | some (ti, tpos) =>
    if e.fireRate < now - e.lastShot then
      ({ e with target := some ti, lastShot := now }, some (mkEnemyProjectile e tpos ti))
    else
      ({ e with target := some ti }, none)

/-- The body of the `updateEnemies` loop for one enemy:
reached-the-end enemies cost a life and are dropped (no reward, regardless
of health); then dead enemies are credited and dropped; survivors acquire a
target and possibly counter-fire. -/
def stepEnemyAcc (path : List Vec3) (towers : List Tower) (now : ℤ)
    (acc : EnemyAcc) (e : Enemy) : EnemyAcc :=
  if e.pathIndex < path.length - 1 then
    let e := moveEnemy path e
    if e.health ≤ 0 then
      { acc with
        gold := acc.gold + e.reward
        score := acc.score + e.reward * 15 }
    else
      let r := retargetEnemy towers now e
      { acc with
        kept := r.1 :: acc.kept
        newShots := acc.newShots ++ r.2.toList }
  else
    { acc with lives := acc.lives - 1 }

/-- `updateEnemies()`: reverse iteration with in-place splicing over the
enemy array, embedded as a left fold over the reversed list. -/
def updateEnemies (now : ℤ) (s : GameState) : GameState :=
  if s.isPaused then s
  else
    let r := s.enemies.reverse.foldl (stepEnemyAcc s.path s.towers now)
      ⟨[], s.gold, s.lives, s.score, []⟩
    { s with
      enemies := r.kept
      gold := r.gold
      lives := r.lives
      score := r.score
      enemyProjectiles := s.enemyProjectiles ++ r.newShots }

/-- `fireProjectile`: a projectile from the turret position raised by 0.5,
whose direction is the normalized vector toward the target position at the
instant of firing, speed 2.2, carrying the tower's damage and kind. -/
def fireProjectile (t : Tower) (targetEid : ℕ) (targetPos : Vec3) : Projectile :=
  let origin : Vec3 := { t.pos with y := t.pos.y + 0.5 }
  { pos := origin
    direction := Vec3.normalize (targetPos.sub origin)
    speed := 2.2
    damage := t.damage
    target := targetEid
    life := 0
    type := t.type }

/-- The body of the `updateTowers` loop for one tower: retarget to the
closest in-range enemy and fire when the fire interval has elapsed. -/
def stepTower (cands : List (ℕ × Vec3)) (now : ℤ)
    (acc : List Tower × List Projectile) (t : Tower) :
    List Tower × List Projectile :=
  match selectTarget t.pos t.range cands with
  | none => (acc.1 ++ [{ t with target := none }], acc.2)
  | some (eid, epos) =>
    if t.fireRate < now - t.lastFired then
      (acc.1 ++ [{ t with target := some eid, lastFired := now }],
       acc.2 ++ [fireProjectile { t with target := some eid } eid epos])
    else
      (acc.1 ++ [{ t with target := some eid }], acc.2)

/-- `updateTowers()`. -/
def updateTowers (now : ℤ) (s : GameState) : GameState :=
  if s.isPaused then s
  else
    let cands := s.enemies.map fun e => (e.eid, e.pos)
    let r := s.towers.foldl (stepTower cands now) ([], [])
    { s with towers := r.1, projectiles := s.projectiles ++ r.2 }

/-- One movement step of a tower projectile: advance by the stored direction
scaled by the speed, and age by one tick. -/
def moveProj (p : Projectile) : Projectile :=
  { p with pos := p.pos.add (p.direction.scale p.speed), life := p.life + 1 }

/-- Accumulator for the reverse-order projectile loop of `updateProjectiles`. -/
structure ProjAcc where
  kept : List Projectile
  enemies : List Enemy
  effects : List Effect
deriving Repr

/-- The body of the `updateProjectiles` loop for one projectile: move and
age it; on a hit (target still registered and within distance 1.8) apply
damage and emit effects; otherwise discard it once its age exceeds 100. -/
def stepProj (acc : ProjAcc) (p0 : Projectile) : ProjAcc :=
  let p := moveProj p0
  match acc.enemies.find? (fun e => e.eid == p.target) with
  | some tgt =>
    if p.pos.distSq tgt.pos < 1.8 ^ 2 then
      { kept := acc.kept
        enemies := acc.enemies.map fun e =>
          if e.eid == p.target then { e with health := e.health - p.damage } else e
        effects := acc.effects ++ [Effect.hit tgt.pos] ++
          (if p.type == TowerType.missile then [Effect.explosion p.pos] else []) }
    else if 100 < p.life then acc
    else { acc with kept := p :: acc.kept }
  | none =>
    if 100 < p.life then acc
    else { acc with kept := p :: acc.kept }

/-- `updateProjectiles()`. -/
def updateProjectiles (s : GameState) : GameState :=
  if s.isPaused then s
  else
    let r := s.projectiles.reverse.foldl stepProj ⟨[], s.enemies, []⟩
    { s with projectiles := r.kept, enemies := r.enemies,
             effects := s.effects ++ r.effects }

/-- One movement step of an enemy projectile. -/
def moveEProj (p : EnemyProjectile) : EnemyProjectile :=
  { p with pos := p.pos.add (p.direction.scale p.speed), life := p.life + 1 }

/-- The body of the `updateEnemyProjectiles` loop: cosmetic hit (a bomb
effect, no damage), or expiry once the age exceeds 150. -/
def stepEProj (towers : List Tower)
    (acc : List EnemyProjectile × List Effect) (p0 : EnemyProjectile) :
    List EnemyProjectile × List Effect :=
  let p := moveEProj p0
  match towers.get? p.target with
  | some t =>
    if p.pos.distSq t.pos < 1.8 ^ 2 then (acc.1, acc.2 ++ [Effect.enemyBomb p.pos])
    else if 150 < p.life then acc
    else (p :: acc.1, acc.2)
  | none =>
    if 150 < p.life then acc
    else (p :: acc.1, acc.2)

/-- `updateEnemyProjectiles()`. -/
def updateEnemyProjectiles (s : GameState) : GameState :=
  if s.isPaused then s
  else
    let r := s.enemyProjectiles.reverse.foldl (stepEProj s.towers) ([], [])
    { s with enemyProjectiles := r.1, effects := s.effects ++ r.2 }

/-- `spawnEnemy()`: create one attacker at the path start with wave-scaled
health, speed and reward, and increment the spawned counter.  (Model
loading is assumed to succeed; on failure JS would abort before both the
push and the increment.) -/
def spawnEnemy (s : GameState) : GameState :=
  if s.path.isEmpty then s
  else
    let baseHealth : ℤ := if 1 < s.wave then 100 else 60
    let baseSpeed : ℚ := if 1 < s.wave then 0.0025 else 0.002
    let baseReward : ℕ := if 1 < s.wave then 25 else 15
    let e : Enemy :=
      { eid := s.nextEid
        pos := { s.path.getD 0 ⟨0, 0, 0⟩ with y := 1 }
        health := baseHealth + s.wave * 20
        maxHealth := baseHealth + s.wave * 20
        speed := baseSpeed + s.wave * 0.0004
        pathIndex := 0
        pathProgress := 0
        reward := baseReward + s.wave * 2
        lastShot := 0
        fireRate := 2000
        range := 15
        target := none }
    { s with
      enemies := s.enemies ++ [e]
      enemiesSpawned := s.enemiesSpawned + 1
      nextEid := s.nextEid + 1 }

/-- `spawnEnemies()`: while the wave is active and not fully spawned, a
per-tick random draw below 0.008 spawns one attacker.  `rand` is the value
of `Math.random()` for this tick. -/
def spawnEnemies (rand : ℚ) (s : GameState) : GameState :=
  if !s.gameStarted || s.enemiesInWave ≤ s.enemiesSpawned || s.isPaused then s
  else if rand < 0.008 then spawnEnemy s
  else s

/-- `checkWaveComplete()`: once the wave is active, fully spawned and no
attacker is alive, credit the completion bonus and return to the idle
(`gameStarted = false`) state. -/
def checkWaveComplete (s : GameState) : GameState :=
  if s.gameStarted ∧ s.enemiesInWave ≤ s.enemiesSpawned ∧ s.enemies = [] then
    let waveBonus : ℕ := 25 + s.wave * 10
    { s with
      gameStarted := false
      gold := s.gold + waveBonus
      score := s.score + waveBonus * 5 }
  else s

/-- `activatePlayerAttack()`: with no live enemies it does nothing (after
the cost was already paid by `placeTower`); otherwise every enemy is
destroyed with an explosion effect and its reward credited to gold and
15-fold to score.  In JS the destruction runs in an animation-completion
callback; it is modelled as the synchronous eventual effect. -/
def activatePlayerAttack (s : GameState) : GameState :=
  if s.isPaused then s
  else if s.enemies.isEmpty then s
  else
    { s with
      enemies := []
      gold := s.gold + ((s.enemies.map fun e => (e.reward : ℤ)).sum)
      score := s.score + ((s.enemies.map fun e => e.reward * 15).sum)
      effects := s.effects ++ (s.enemies.reverse.map fun e => Effect.explosion e.pos) }

/-- The placement validity test of `placeTower`: at least 6 units from every
tower, 10 from every colony and 4 from every path point (strict `<` means
rejection, compared squared). -/
def validPosition (s : GameState) (position : Vec3) : Bool :=
  s.towers.all (fun t => !(decide (position.distSq t.pos < 6 ^ 2))) &&
  s.colonies.all (fun c => !(decide (position.distSq c < 10 ^ 2))) &&
  s.path.all (fun p => !(decide (position.distSq p < 4 ^ 2)))

/-- `createTower`: the stored tower sits at the picked position with `y = 1`
and copies the combat statistics of its kind (`colony` and `playerAttack`
never reach this function, so the fallback statistics are dead). -/
def createTower (position : Vec3) (type : TowerType) : Tower :=
  let stats := (towerTypes type).combat.getD ⟨0, 0, 0⟩
  { pos := { position with y := 1 }
    type := type
    damage := stats.damage
    range := stats.range
    fireRate := stats.fireRate
    lastFired := 0
    target := none }

/-- `placeTower(position)`: gold check first, then the placement validity
check; a rejected request mutates nothing.  Colonies are stored with
`y = 0.1` (Colony.loadModel), ordinary towers with `y = 1`, and
`playerAttack` debits its cost and triggers the full-map attack. -/
def placeTower (position : Vec3) (s : GameState) : GameState :=
  if s.isPaused then s
  else
    let itemData := towerTypes s.selectedTowerType
    if (itemData.cost : ℤ) ≤ s.gold then
      if validPosition s position then
        match s.selectedTowerType with
        | .colony =>
          { s with
            colonies := s.colonies ++ [{ position with y := 0.1 }]
            gold := s.gold - itemData.cost }
        | .playerAttack =>
          activatePlayerAttack { s with gold := s.gold - itemData.cost }
        | t =>
          { s with
            towers := s.towers ++ [createTower position t]
            gold := s.gold - itemData.cost }
      else s
    else s

/-- One pass of the `registerBeforeRender` game loop (camera update is
presentation-only and omitted): enemies, towers, projectiles, enemy
projectiles, spawning, wave completion — all skipped while paused. -/
def tick (now : ℤ) (rand : ℚ) (s : GameState) : GameState :=
  if s.isPaused then s
  else
    checkWaveComplete (spawnEnemies rand
      (updateEnemyProjectiles (updateProjectiles
        (updateTowers now (updateEnemies now s)))))

/-! Concrete test states used to evaluate the model on specific inputs. -/

/-- A state in the middle of wave 1: the wave is active (`gameStarted`),
2 of 5 enemies spawned, not paused. -/
def c1State : GameState :=
  { gold := 600, lives := 25, score := 0, wave := 1, enemiesInWave := 5,
    enemiesSpawned := 2, selectedTowerType := .basic, gameStarted := true,
    isPaused := false, towers := [], enemies := [], projectiles := [],
    enemyProjectiles := [], colonies := [], path := gamePath, nextEid := 2,
    effects := [] }

/-- A short straight test path. -/
def c2Path : List Vec3 := [⟨0, 0.15, 0⟩, ⟨1, 0.15, 0⟩, ⟨2, 0.15, 0⟩]

/-- A basic tower (damage 25, fire interval 900) placed 2/3 units from the
path start; the offset is chosen so that the firing direction has a
rational norm (‖(2/3, −1/2, 0)‖ = 5/6). -/
def c2Tower : Tower :=
  { pos := ⟨-2/3, 1, 0⟩, type := .basic, damage := 25, range := 10,
    fireRate := 900, lastFired := 0, target := none }

/-- An attacker with health 60 as in the spec's Scenario B.  Its speed is 0
so the firing geometry is identical for every shot (no spawnable enemy has
health 60 either: wave `w ≥ 1` gives at least `60 + 20·w`). -/
def c2Enemy : Enemy :=
  { eid := 0, pos := ⟨0, 1, 0⟩, health := 60, maxHealth := 60, speed := 0,
    pathIndex := 0, pathProgress := 0, reward := 17, lastShot := 0,
    fireRate := 2000, range := 15, target := none }

/-- Scenario B start state: one basic tower, one attacker with health 60. -/
def c2State : GameState :=
  { gold := 600, lives := 25, score := 0, wave := 1, enemiesInWave := 5,
    enemiesSpawned := 1, selectedTowerType := .basic, gameStarted := true,
    isPaused := false, towers := [c2Tower], enemies := [c2Enemy],
    projectiles := [], enemyProjectiles := [], colonies := [],
    path := c2Path, nextEid := 1, effects := [] }

/-- Scenario B after the first fire event (tick at time 1000; the tower
fires since 1000 − 0 > 900, and the projectile hits within the tick). -/
def c2s1 : GameState := tick 1000 1 c2State

/-- Scenario B after the second fire event, 1000 ≥ 900 time units later. -/
def c2s2 : GameState := tick 2000 1 c2s1

/-- Scenario B after a third fire event. -/
def c2s3 : GameState := tick 3000 1 c2s2

/-- Scenario B one tick after the third hit (the kill is collected by
`updateEnemies` on the following tick). -/
def c2s4 : GameState := tick 4000 1 c2s3

/-- An attacker standing at the final waypoint of the game path
(`pathIndex = 18 = gamePath.length − 1`) with positive health. -/
def c3Enemy (n : ℕ) : Enemy :=
  { eid := n, pos := ⟨-500, 1, 200⟩, health := 80, maxHealth := 80,
    speed := 0.0024, pathIndex := 18, pathProgress := 0, reward := 17,
    lastShot := 0, fireRate := 2000, range := 15, target := none }

/-- A state with 1 life left and two attackers at the final waypoint, both
of which reach the end in the same tick. -/
def c3State : GameState :=
  { gold := 600, lives := 1, score := 0, wave := 1, enemiesInWave := 5,
    enemiesSpawned := 5, selectedTowerType := .basic, gameStarted := true,
    isPaused := false, towers := [], enemies := [c3Enemy 0, c3Enemy 1],
    projectiles := [], enemyProjectiles := [], colonies := [],
    path := gamePath, nextEid := 2, effects := [] }

/-- A projectile whose target id (99) is not in the enemy registry — the
model of a dangling reference to a disposed mesh — so its hit test never
succeeds. -/
def c7Proj : Projectile :=
  { pos := ⟨0, 1.5, 0⟩, direction := ⟨1, 0, 0⟩, speed := 2.2, damage := 25,
    target := 99, life := 0, type := .basic }

/-- A live attacker (id 0) that the projectile above does not reference. -/
def c7Enemy : Enemy :=
  { eid := 0, pos := ⟨50, 1, 0⟩, health := 80, maxHealth := 80, speed := 0.0024,
    pathIndex := 0, pathProgress := 0, reward := 17, lastShot := 0,
    fireRate := 2000, range := 15, target := none }

/-- A state with just the dangling projectile and an unrelated attacker. -/
def c7State : GameState :=
  { gold := 600, lives := 25, score := 0, wave := 1, enemiesInWave := 5,
    enemiesSpawned := 5, selectedTowerType := .basic, gameStarted := true,
    isPaused := false, towers := [], enemies := [c7Enemy],
    projectiles := [c7Proj], enemyProjectiles := [], colonies := [],
    path := c2Path, nextEid := 1, effects := [] }

/-- A fully-spawned wave-1 state with no live attackers, ready for wave
completion. -/
def c5DoneState : GameState := { c1State with enemiesSpawned := 5 }

/-- The initial state with no gold at all. -/
def c4PoorState : GameState := { initialState gamePath with gold := 0 }

/-- A state about to buy the full-map player attack with no live enemies:
enough gold (1200) and `playerAttack` selected. -/
def c9State : GameState :=
  { initialState gamePath with gold := 1200, selectedTowerType := .playerAttack }

end OrdinaryDefense

set_option maxRecDepth 10000

namespace OrdinaryDefense

lemma moveEnemy_health (path : List Vec3) (e : Enemy) :
    (moveEnemy path e).health = e.health := by
  simp only [moveEnemy]
  split <;> split <;> rfl

lemma moveEnemy_reward (path : List Vec3) (e : Enemy) :
    (moveEnemy path e).reward = e.reward := by
  simp only [moveEnemy]
  split <;> split <;> rfl

lemma moveEnemy_eid (path : List Vec3) (e : Enemy) :
    (moveEnemy path e).eid = e.eid := by
  simp only [moveEnemy]
  split <;> split <;> rfl

lemma retargetEnemy_fst_eid (towers : List Tower) (now : ℤ) (e : Enemy) :
    (retargetEnemy towers now e).1.eid = e.eid := by
  simp only [retargetEnemy]
  split
  · rfl
  · split <;> rfl

lemma retargetEnemy_fst_health (towers : List Tower) (now : ℤ) (e : Enemy) :
    (retargetEnemy towers now e).1.health = e.health := by
  simp only [retargetEnemy]
  split
  · rfl
  · split <;> rfl

lemma stepEnemyAcc_atEnd (path : List Vec3) (towers : List Tower) (now : ℤ)
    (acc : EnemyAcc) (e : Enemy) (h : ¬ e.pathIndex < path.length - 1) :
    stepEnemyAcc path towers now acc e = { acc with lives := acc.lives - 1 } := by
  simp only [stepEnemyAcc, if_neg h]

lemma stepEnemyAcc_dead (path : List Vec3) (towers : List Tower) (now : ℤ)
    (acc : EnemyAcc) (e : Enemy) (h : e.pathIndex < path.length - 1)
    (hd : e.health ≤ 0) :
    stepEnemyAcc path towers now acc e =
      { acc with gold := acc.gold + (e.reward : ℤ),
                 score := acc.score + e.reward * 15 } := by
  simp only [stepEnemyAcc, if_pos h, moveEnemy_health, if_pos hd, moveEnemy_reward]

lemma stepEnemyAcc_alive (path : List Vec3) (towers : List Tower) (now : ℤ)
    (acc : EnemyAcc) (e : Enemy) (h : e.pathIndex < path.length - 1)
    (hd : ¬ e.health ≤ 0) :
    stepEnemyAcc path towers now acc e =
      { acc with
        kept := (retargetEnemy towers now (moveEnemy path e)).1 :: acc.kept
        newShots := acc.newShots ++ (retargetEnemy towers now (moveEnemy path e)).2.toList } := by
  simp only [stepEnemyAcc, if_pos h, moveEnemy_health, if_neg hd]

/-- Characterization of the `updateEnemies` fold: lives drop by one per
enemy at the final waypoint; gold and score are credited per dead enemy
that is not at the final waypoint; every kept enemy descends from a live,
not-at-the-end input enemy with unchanged id and health. -/
lemma foldl_stepEnemyAcc_spec (path : List Vec3) (towers : List Tower) (now : ℤ)
    (l : List Enemy) :
    ∀ (acc : EnemyAcc),
      ((l.foldl (stepEnemyAcc path towers now) acc).lives
          = acc.lives - (l.filter fun e => !decide (e.pathIndex < path.length - 1)).length)
      ∧ ((l.foldl (stepEnemyAcc path towers now) acc).gold
          = acc.gold + ((l.filter fun e =>
              decide (e.pathIndex < path.length - 1) && decide (e.health ≤ 0)).map
              fun e => (e.reward : ℤ)).sum)
      ∧ ((l.foldl (stepEnemyAcc path towers now) acc).score
          = acc.score + ((l.filter fun e =>
              decide (e.pathIndex < path.length - 1) && decide (e.health ≤ 0)).map
              fun e => e.reward * 15).sum)
      ∧ (∀ x ∈ (l.foldl (stepEnemyAcc path towers now) acc).kept,
          x ∈ acc.kept ∨ ∃ e ∈ l, e.pathIndex < path.length - 1 ∧ 0 < e.health
            ∧ x.eid = e.eid ∧ x.health = e.health) := by
  induction l with
  | nil => intro acc; simp
  | cons e l ih =>
    intro acc
    by_cases h : e.pathIndex < path.length - 1
    · by_cases hd : e.health ≤ 0
      · have hstep := stepEnemyAcc_dead path towers now acc e h hd
        have hfEnd : ((e :: l).filter fun x => !decide (x.pathIndex < path.length - 1))
            = l.filter fun x => !decide (x.pathIndex < path.length - 1) := by
          simp [List.filter_cons, h]
        have hfDead : ((e :: l).filter fun x =>
              decide (x.pathIndex < path.length - 1) && decide (x.health ≤ 0))
            = e :: l.filter fun x =>
              decide (x.pathIndex < path.length - 1) && decide (x.health ≤ 0) := by
          simp [List.filter_cons, h, hd]
        obtain ⟨ih1, ih2, ih3, ih4⟩ := ih
          { acc with gold := acc.gold + (e.reward : ℤ),
                     score := acc.score + e.reward * 15 }
        refine ⟨?_, ?_, ?_, ?_⟩
        · rw [List.foldl_cons, hstep, hfEnd, ih1]
        · rw [List.foldl_cons, hstep, hfDead, ih2, List.map_cons, List.sum_cons]
          show acc.gold + (e.reward : ℤ) + _ = _
          ring
        · rw [List.foldl_cons, hstep, hfDead, ih3, List.map_cons, List.sum_cons]
          show acc.score + e.reward * 15 + _ = _
          ring
        · intro x hx
          rw [List.foldl_cons, hstep] at hx
          rcases ih4 x hx with h1 | ⟨e2, he2, h2⟩
          · exact Or.inl h1
          · exact Or.inr ⟨e2, List.mem_cons_of_mem _ he2, h2⟩
      · have hstep := stepEnemyAcc_alive path towers now acc e h hd
        have hfEnd : ((e :: l).filter fun x => !decide (x.pathIndex < path.length - 1))
            = l.filter fun x => !decide (x.pathIndex < path.length - 1) := by
          simp [List.filter_cons, h]
        have hfDead : ((e :: l).filter fun x =>
              decide (x.pathIndex < path.length - 1) && decide (x.health ≤ 0))
            = l.filter fun x =>
              decide (x.pathIndex < path.length - 1) && decide (x.health ≤ 0) := by
          simp [List.filter_cons, hd]
        obtain ⟨ih1, ih2, ih3, ih4⟩ := ih
          { acc with
            kept := (retargetEnemy towers now (moveEnemy path e)).1 :: acc.kept
            newShots := acc.newShots ++ (retargetEnemy towers now (moveEnemy path e)).2.toList }
        refine ⟨?_, ?_, ?_, ?_⟩
        · rw [List.foldl_cons, hstep, hfEnd, ih1]
        · rw [List.foldl_cons, hstep, hfDead, ih2]
        · rw [List.foldl_cons, hstep, hfDead, ih3]
        · intro x hx
          rw [List.foldl_cons, hstep] at hx
          rcases ih4 x hx with h1 | ⟨e2, he2, h2⟩
          · rcases List.mem_cons.1 h1 with h1 | h1
            · refine Or.inr ⟨e, List.mem_cons_self e l, h, by omega, ?_, ?_⟩
              · rw [h1, retargetEnemy_fst_eid, moveEnemy_eid]
              · rw [h1, retargetEnemy_fst_health, moveEnemy_health]
            · exact Or.inl h1
          · exact Or.inr ⟨e2, List.mem_cons_of_mem _ he2, h2⟩
    · have hstep := stepEnemyAcc_atEnd path towers now acc e h
      have hfEnd : ((e :: l).filter fun x => !decide (x.pathIndex < path.length - 1))
          = e :: l.filter fun x => !decide (x.pathIndex < path.length - 1) := by
        simp [List.filter_cons, h]
      have hfDead : ((e :: l).filter fun x =>
            decide (x.pathIndex < path.length - 1) && decide (x.health ≤ 0))
          = l.filter fun x =>
            decide (x.pathIndex < path.length - 1) && decide (x.health ≤ 0) := by
        simp [List.filter_cons, h]
      obtain ⟨ih1, ih2, ih3, ih4⟩ := ih { acc with lives := acc.lives - 1 }
      refine ⟨?_, ?_, ?_, ?_⟩
      · rw [List.foldl_cons, hstep, hfEnd, ih1, List.length_cons]
        show acc.lives - 1 - _ = _
        push_cast
        ring
      · rw [List.foldl_cons, hstep, hfDead, ih2]
      · rw [List.foldl_cons, hstep, hfDead, ih3]
      · intro x hx
        rw [List.foldl_cons, hstep] at hx
        rcases ih4 x hx with h1 | ⟨e2, he2, h2⟩
        · exact Or.inl h1
        · exact Or.inr ⟨e2, List.mem_cons_of_mem _ he2, h2⟩

end OrdinaryDefense


namespace OrdinaryDefense

/-- `updateEnemies` on an unpaused state: lives drop by one per enemy at
the final waypoint (independent of health, with no reward); gold and score
are credited exactly for the dead enemies not at the final waypoint; and
every surviving enemy stems from a live, not-at-the-end input enemy with
unchanged id and health. -/
lemma updateEnemies_spec (now : ℤ) (s : GameState) (hp : s.isPaused = false) :
    ((updateEnemies now s).lives
        = s.lives - (s.enemies.filter fun e => !decide (e.pathIndex < s.path.length - 1)).length)
    ∧ ((updateEnemies now s).gold
        = s.gold + ((s.enemies.filter fun e =>
            decide (e.pathIndex < s.path.length - 1) && decide (e.health ≤ 0)).map
            fun e => (e.reward : ℤ)).sum)
    ∧ ((updateEnemies now s).score
        = s.score + ((s.enemies.filter fun e =>
            decide (e.pathIndex < s.path.length - 1) && decide (e.health ≤ 0)).map
            fun e => e.reward * 15).sum)
    ∧ (∀ x ∈ (updateEnemies now s).enemies,
        ∃ e ∈ s.enemies, e.pathIndex < s.path.length - 1 ∧ 0 < e.health
          ∧ x.eid = e.eid ∧ x.health = e.health) := by
  obtain ⟨h1, h2, h3, h4⟩ := foldl_stepEnemyAcc_spec s.path s.towers now
    s.enemies.reverse ⟨[], s.gold, s.lives, s.score, []⟩
  have hpause : ¬ (s.isPaused = true) := by rw [hp]; simp
  have hu : updateEnemies now s = { s with
      enemies := (s.enemies.reverse.foldl (stepEnemyAcc s.path s.towers now)
        ⟨[], s.gold, s.lives, s.score, []⟩).kept,
      gold := (s.enemies.reverse.foldl (stepEnemyAcc s.path s.towers now)
        ⟨[], s.gold, s.lives, s.score, []⟩).gold,
      lives := (s.enemies.reverse.foldl (stepEnemyAcc s.path s.towers now)
        ⟨[], s.gold, s.lives, s.score, []⟩).lives,
      score := (s.enemies.reverse.foldl (stepEnemyAcc s.path s.towers now)
        ⟨[], s.gold, s.lives, s.score, []⟩).score,
      enemyProjectiles := s.enemyProjectiles ++
        (s.enemies.reverse.foldl (stepEnemyAcc s.path s.towers now)
          ⟨[], s.gold, s.lives, s.score, []⟩).newShots } := by
    unfold updateEnemies
    rw [if_neg hpause]
  refine ⟨?_, ?_, ?_, ?_⟩
  · rw [hu]
    dsimp only
    rw [h1, List.filter_reverse, List.length_reverse]
  · rw [hu]
    dsimp only
    rw [h2, List.filter_reverse, List.map_reverse, List.sum_reverse]
  · rw [hu]
    dsimp only
    rw [h3, List.filter_reverse, List.map_reverse, List.sum_reverse]
  · intro x hx
    rw [hu] at hx
    rcases h4 x hx with h1 | ⟨e2, he2, h2⟩
    · simp at h1
    · exact ⟨e2, List.mem_reverse.1 he2, h2⟩

end OrdinaryDefense

namespace OrdinaryDefense

lemma updateEnemies_gold_mono (now : ℤ) (s : GameState) :
    s.gold ≤ (updateEnemies now s).gold := by
  cases hp : s.isPaused with
  | true => simp [updateEnemies, hp]
  | false =>
    rw [(updateEnemies_spec now s hp).2.1]
    have : 0 ≤ ((s.enemies.filter fun e =>
        decide (e.pathIndex < s.path.length - 1) && decide (e.health ≤ 0)).map
        fun e => (e.reward : ℤ)).sum := by
      apply List.sum_nonneg
      intro x hx
      obtain ⟨e, _, he⟩ := List.mem_map.1 hx
      rw [← he]
      exact Int.natCast_nonneg _
    omega

lemma updateEnemies_score_mono (now : ℤ) (s : GameState) :
    s.score ≤ (updateEnemies now s).score := by
  cases hp : s.isPaused with
  | true => simp [updateEnemies, hp]
  | false =>
    rw [(updateEnemies_spec now s hp).2.2.1]
    exact Nat.le_add_right _ _

lemma updateTowers_fields (now : ℤ) (s : GameState) :
    (updateTowers now s).gold = s.gold ∧ (updateTowers now s).lives = s.lives
    ∧ (updateTowers now s).score = s.score
    ∧ (updateTowers now s).enemies = s.enemies
    ∧ (updateTowers now s).effects = s.effects := by
  unfold updateTowers
  split
  · exact ⟨rfl, rfl, rfl, rfl, rfl⟩
  · exact ⟨rfl, rfl, rfl, rfl, rfl⟩

lemma updateProjectiles_fields (s : GameState) :
    (updateProjectiles s).gold = s.gold ∧ (updateProjectiles s).lives = s.lives
    ∧ (updateProjectiles s).score = s.score
    ∧ (updateProjectiles s).towers = s.towers := by
  unfold updateProjectiles
  split
  · exact ⟨rfl, rfl, rfl, rfl⟩
  · exact ⟨rfl, rfl, rfl, rfl⟩

lemma updateEnemyProjectiles_fields (s : GameState) :
    (updateEnemyProjectiles s).gold = s.gold
    ∧ (updateEnemyProjectiles s).lives = s.lives
    ∧ (updateEnemyProjectiles s).score = s.score
    ∧ (updateEnemyProjectiles s).enemies = s.enemies := by
  unfold updateEnemyProjectiles
  split
  · exact ⟨rfl, rfl, rfl, rfl⟩
  · exact ⟨rfl, rfl, rfl, rfl⟩

lemma spawnEnemies_fields (rand : ℚ) (s : GameState) :
    (spawnEnemies rand s).gold = s.gold ∧ (spawnEnemies rand s).lives = s.lives
    ∧ (spawnEnemies rand s).score = s.score := by
  unfold spawnEnemies spawnEnemy
  split
  · exact ⟨rfl, rfl, rfl⟩
  · split
    · split
      · exact ⟨rfl, rfl, rfl⟩
      · exact ⟨rfl, rfl, rfl⟩
    · exact ⟨rfl, rfl, rfl⟩

lemma checkWaveComplete_gold (s : GameState) :
    (checkWaveComplete s).gold = s.gold +
      (if s.gameStarted ∧ s.enemiesInWave ≤ s.enemiesSpawned ∧ s.enemies = []
       then ((25 + s.wave * 10 : ℕ) : ℤ) else 0) := by
  unfold checkWaveComplete
  split
  · rfl
  · omega

lemma checkWaveComplete_score (s : GameState) :
    (checkWaveComplete s).score = s.score +
      (if s.gameStarted ∧ s.enemiesInWave ≤ s.enemiesSpawned ∧ s.enemies = []
       then (25 + s.wave * 10) * 5 else 0) := by
  unfold checkWaveComplete
  split
  · rfl
  · omega

lemma checkWaveComplete_lives (s : GameState) :
    (checkWaveComplete s).lives = s.lives := by
  unfold checkWaveComplete
  split <;> rfl

lemma checkWaveComplete_gold_mono (s : GameState) :
    s.gold ≤ (checkWaveComplete s).gold := by
  rw [checkWaveComplete_gold]
  split <;> omega

lemma checkWaveComplete_score_mono (s : GameState) :
    s.score ≤ (checkWaveComplete s).score := by
  rw [checkWaveComplete_score]
  exact Nat.le_add_right _ _

lemma tick_gold_mono (now : ℤ) (rand : ℚ) (s : GameState) :
    s.gold ≤ (tick now rand s).gold := by
  unfold tick
  split
  · exact le_refl _
  · calc s.gold
        ≤ (updateEnemies now s).gold := updateEnemies_gold_mono now s
      _ = (updateTowers now (updateEnemies now s)).gold :=
          (updateTowers_fields now _).1.symm
      _ = (updateProjectiles (updateTowers now (updateEnemies now s))).gold :=
          (updateProjectiles_fields _).1.symm
      _ = (updateEnemyProjectiles (updateProjectiles
            (updateTowers now (updateEnemies now s)))).gold :=
          (updateEnemyProjectiles_fields _).1.symm
      _ = (spawnEnemies rand (updateEnemyProjectiles (updateProjectiles
            (updateTowers now (updateEnemies now s))))).gold :=
          (spawnEnemies_fields rand _).1.symm
      _ ≤ _ := checkWaveComplete_gold_mono _

lemma tick_score_mono (now : ℤ) (rand : ℚ) (s : GameState) :
    s.score ≤ (tick now rand s).score := by
  unfold tick
  split
  · exact le_refl _
  · calc s.score
        ≤ (updateEnemies now s).score := updateEnemies_score_mono now s
      _ = (updateTowers now (updateEnemies now s)).score :=
          (updateTowers_fields now _).2.2.1.symm
      _ = (updateProjectiles (updateTowers now (updateEnemies now s))).score :=
          (updateProjectiles_fields _).2.2.1.symm
      _ = (updateEnemyProjectiles (updateProjectiles
            (updateTowers now (updateEnemies now s)))).score :=
          (updateEnemyProjectiles_fields _).2.2.1.symm
      _ = (spawnEnemies rand (updateEnemyProjectiles (updateProjectiles
            (updateTowers now (updateEnemies now s))))).score :=
          (spawnEnemies_fields rand _).2.2.symm
      _ ≤ _ := checkWaveComplete_score_mono _

end OrdinaryDefense

namespace OrdinaryDefense

lemma stepProj_kept (acc : ProjAcc) (p0 : Projectile) :
    (stepProj acc p0).kept = acc.kept ∨
    ((stepProj acc p0).kept = moveProj p0 :: acc.kept ∧ (moveProj p0).life ≤ 100) := by
  simp only [stepProj]
  split
  · split
    · exact Or.inl rfl
    · split
      · exact Or.inl rfl
      · exact Or.inr ⟨rfl, by omega⟩
  · split
    · exact Or.inl rfl
    · exact Or.inr ⟨rfl, by omega⟩

lemma foldl_stepProj_kept (l : List Projectile) :
    ∀ (acc : ProjAcc), ∀ x ∈ (l.foldl stepProj acc).kept,
      x ∈ acc.kept ∨ ∃ q ∈ l, x = moveProj q ∧ x.life ≤ 100 := by
  induction l with
  | nil => intro acc x hx; exact Or.inl hx
  | cons q l ih =>
    intro acc x hx
    rw [List.foldl_cons] at hx
    rcases ih (stepProj acc q) x hx with h1 | ⟨q2, hq2, h2⟩
    · rcases stepProj_kept acc q with hk | ⟨hk, hlife⟩
      · rw [hk] at h1
        exact Or.inl h1
      · rw [hk] at h1
        rcases List.mem_cons.1 h1 with h1 | h1
        · exact Or.inr ⟨q, List.mem_cons_self q l, h1, h1 ▸ hlife⟩
        · exact Or.inl h1
    · exact Or.inr ⟨q2, List.mem_cons_of_mem _ hq2, h2⟩

/-- Every projectile surviving `updateProjectiles` on an unpaused state is
the one-step-advanced version of an input projectile (same direction,
position advanced by direction × speed) whose age is at most the
time-to-live of 100. -/
lemma updateProjectiles_kept (s : GameState) (hp : s.isPaused = false) :
    ∀ x ∈ (updateProjectiles s).projectiles,
      ∃ q ∈ s.projectiles, x = moveProj q ∧ x.life ≤ 100 := by
  intro x hx
  have hpause : ¬ (s.isPaused = true) := by rw [hp]; simp
  have hu : updateProjectiles s = { s with
      projectiles := (s.projectiles.reverse.foldl stepProj ⟨[], s.enemies, []⟩).kept,
      enemies := (s.projectiles.reverse.foldl stepProj ⟨[], s.enemies, []⟩).enemies,
      effects := s.effects ++ (s.projectiles.reverse.foldl stepProj ⟨[], s.enemies, []⟩).effects } := by
    unfold updateProjectiles
    rw [if_neg hpause]
  rw [hu] at hx
  rcases foldl_stepProj_kept s.projectiles.reverse ⟨[], s.enemies, []⟩ x hx with h1 | ⟨q, hq, h2⟩
  · simp at h1
  · exact ⟨q, List.mem_reverse.1 hq, h2⟩

lemma activatePlayerAttack_gold_mono (s : GameState) :
    s.gold ≤ (activatePlayerAttack s).gold := by
  unfold activatePlayerAttack
  split
  · exact le_refl _
  · split
    · exact le_refl _
    · have : 0 ≤ ((s.enemies.map fun e => (e.reward : ℤ)).sum) := by
        apply List.sum_nonneg
        intro x hx
        obtain ⟨e, _, he⟩ := List.mem_map.1 hx
        rw [← he]
        exact Int.natCast_nonneg _
      show s.gold ≤ s.gold + _
      omega

lemma activatePlayerAttack_score_mono (s : GameState) :
    s.score ≤ (activatePlayerAttack s).score := by
  unfold activatePlayerAttack
  split
  · exact le_refl _
  · split
    · exact le_refl _
    · exact Nat.le_add_right _ _

lemma activatePlayerAttack_score_eq (s : GameState) (hp : s.isPaused = false) :
    (activatePlayerAttack s).score = s.score +
      (if s.enemies.isEmpty then 0 else (s.enemies.map fun e => e.reward * 15).sum) := by
  have hpause : ¬ (s.isPaused = true) := by rw [hp]; simp
  unfold activatePlayerAttack
  rw [if_neg hpause]
  split
  · simp
  · simp

lemma placeTower_insufficient (pos : Vec3) (s : GameState)
    (h : s.gold < ((towerTypes s.selectedTowerType).cost : ℤ)) :
    placeTower pos s = s := by
  simp only [placeTower]
  split
  · rfl
  · rw [if_neg (by omega)]

lemma placeTower_invalid (pos : Vec3) (s : GameState)
    (h : validPosition s pos = false) :
    placeTower pos s = s := by
  simp only [placeTower, h, Bool.false_eq_true, if_false, ite_self]

lemma placeTower_gold_nonneg (pos : Vec3) (s : GameState) (h : 0 ≤ s.gold) :
    0 ≤ (placeTower pos s).gold := by
  cases hsel : s.selectedTowerType with
  | basic =>
    simp only [placeTower, hsel, towerTypes]
    split
    · exact h
    · split
      · split
        · dsimp only
          omega
        · exact h
      · exact h
  | missile =>
    simp only [placeTower, hsel, towerTypes]
    split
    · exact h
    · split
      · split
        · dsimp only
          omega
        · exact h
      · exact h
  | laser =>
    simp only [placeTower, hsel, towerTypes]
    split
    · exact h
    · split
      · split
        · dsimp only
          omega
        · exact h
      · exact h
  | colony =>
    simp only [placeTower, hsel, towerTypes]
    split
    · exact h
    · split
      · split
        · dsimp only
          omega
        · exact h
      · exact h
  | playerAttack =>
    simp only [placeTower, hsel, towerTypes]
    split
    · exact h
    · split
      · split
        · refine le_trans ?_ (activatePlayerAttack_gold_mono _)
          dsimp only
          omega
        · exact h
      · exact h

lemma placeTower_score_mono (pos : Vec3) (s : GameState) :
    s.score ≤ (placeTower pos s).score := by
  cases hsel : s.selectedTowerType with
  | basic =>
    simp only [placeTower, hsel, towerTypes]
    split
    · exact le_refl _
    · split
      · split
        · exact le_refl _
        · exact le_refl _
      · exact le_refl _
  | missile =>
    simp only [placeTower, hsel, towerTypes]
    split
    · exact le_refl _
    · split
      · split
        · exact le_refl _
        · exact le_refl _
      · exact le_refl _
  | laser =>
    simp only [placeTower, hsel, towerTypes]
    split
    · exact le_refl _
    · split
      · split
        · exact le_refl _
        · exact le_refl _
      · exact le_refl _
  | colony =>
    simp only [placeTower, hsel, towerTypes]
    split
    · exact le_refl _
    · split
      · split
        · exact le_refl _
        · exact le_refl _
      · exact le_refl _
  | playerAttack =>
    simp only [placeTower, hsel, towerTypes]
    split
    · exact le_refl _
    · split
      · split
        · exact activatePlayerAttack_score_mono
            { s with gold := s.gold - ((1000:ℕ):ℤ),
                     selectedTowerType := TowerType.playerAttack }
        · exact le_refl _
      · exact le_refl _

end OrdinaryDefense

namespace OrdinaryDefense

/-- C1 (counterexample): on a concrete unpaused mid-wave state (wave 1
active, 2 of 5 spawned), `startNextWave` changes the wave number, the
enemies-in-wave count and the spawned counter — it is not a no-op. -/
theorem C1_counterexample_startNextWave_active_not_noop :
    c1State.gameStarted = true ∧ c1State.isPaused = false
    ∧ c1State.enemiesSpawned < c1State.enemiesInWave
    ∧ (startNextWave c1State).wave ≠ c1State.wave
    ∧ (startNextWave c1State).enemiesInWave ≠ c1State.enemiesInWave
    ∧ (startNextWave c1State).enemiesSpawned ≠ c1State.enemiesSpawned := by
  decide

/-- C1 (amended): calling `startNextWave()` while a wave is active is not
ignored — its only guard is the pause flag, so on any unpaused state it
increments the wave, recomputes the wave size and resets the spawned
counter; the UI prevents this only by disabling the button. -/
theorem C1_amended_startNextWave_active_effect (s : GameState)
    (hp : s.isPaused = false) (_hg : s.gameStarted = true) :
    (startNextWave s).wave = s.wave + 1
    ∧ (startNextWave s).enemiesInWave = min (3 + (s.wave + 1) * 2) 25
    ∧ (startNextWave s).enemiesSpawned = 0
    ∧ (startNextWave s).gameStarted = true := by
  have hpause : ¬ s.isPaused = true := by rw [hp]; simp
  unfold startNextWave
  rw [if_neg hpause]
  exact ⟨rfl, rfl, rfl, rfl⟩

/-- Witness for C1 amended at the concrete mid-wave state. -/
theorem C1_amended_startNextWave_active_effect_witness :
    (startNextWave c1State).wave = c1State.wave + 1
    ∧ (startNextWave c1State).enemiesInWave = min (3 + (c1State.wave + 1) * 2) 25
    ∧ (startNextWave c1State).enemiesSpawned = 0
    ∧ (startNextWave c1State).gameStarted = true :=
  C1_amended_startNextWave_active_effect c1State (by decide) (by decide)

/-- C2 (counterexample): a basic defender (damage 25, fire interval 900)
against an attacker with health 60: after the first hit health is 35, but
after a second hit — fired 1000 ≥ 900 time units later — health is 10, not
≤ 0, and the attacker is still registered with no reward credited. -/
theorem C2_counterexample_second_hit_does_not_kill :
    (c2s1.enemies.map Enemy.health = [35])
    ∧ (c2s2.enemies.map Enemy.health = [10])
    ∧ c2s2.enemies ≠ []
    ∧ c2s2.gold = c2State.gold := by
  decide

/-- C2 (amended): with damage 25 and health 60, the first hit leaves
health 35, the second leaves health 10 (still alive), and only the third
drives health to −15 ≤ 0, after which the attacker is removed and its
reward (17) credited to gold on the next enemy update. -/
theorem C2_amended_three_hits_kill :
    (c2s1.enemies.map Enemy.health = [35]) ∧ c2s1.enemies ≠ []
    ∧ (c2s2.enemies.map Enemy.health = [10]) ∧ c2s2.enemies ≠ []
    ∧ (c2s3.enemies.map Enemy.health = [-15])
    ∧ c2s4.enemies = []
    ∧ c2s4.gold = c2State.gold + 17
    ∧ c2s4.score = c2State.score + 17 * 15 := by
  decide

end OrdinaryDefense

namespace OrdinaryDefense

/-- C3 (counterexample): from a state with nonnegative gold and lives
(lives = 1) and two attackers at the final waypoint, one unpaused
simulation tick leaves lives = −1: each arrival decrements lives
unconditionally and game over does not abort the in-progress tick. -/
theorem C3_counterexample_lives_go_negative :
    (0 ≤ c3State.gold ∧ 0 ≤ c3State.lives ∧ c3State.isPaused = false
      ∧ c3State.gameStarted = true)
    ∧ (tick 1000 1 c3State).lives < 0 := by
  decide

/-- C3 (amended): gold stays nonnegative under every public operation —
all debits are balance-checked (a placement with insufficient gold leaves
gold untouched) and every other gold mutation is a credit; lives, by
contrast, is not so protected (see the counterexample). -/
theorem C3_amended_gold_nonneg (pos : Vec3) (now : ℤ) (rand : ℚ)
    (s : GameState) (h : 0 ≤ s.gold) :
    0 ≤ (placeTower pos s).gold
    ∧ 0 ≤ (startNextWave s).gold
    ∧ 0 ≤ (togglePause s).gold
    ∧ 0 ≤ (activatePlayerAttack s).gold
    ∧ 0 ≤ (tick now rand s).gold
    ∧ (s.gold < ((towerTypes s.selectedTowerType).cost : ℤ) →
        (placeTower pos s).gold = s.gold) := by
  refine ⟨placeTower_gold_nonneg pos s h, ?_, h,
    le_trans h (activatePlayerAttack_gold_mono s),
    le_trans h (tick_gold_mono now rand s), ?_⟩
  · unfold startNextWave
    split
    · exact h
    · exact h
  · intro hlt
    rw [placeTower_insufficient pos s hlt]

/-- Witness for C3 amended at the initial state. -/
theorem C3_amended_gold_nonneg_witness :
    0 ≤ (placeTower ⟨0, 0, 0⟩ (initialState gamePath)).gold
    ∧ 0 ≤ (startNextWave (initialState gamePath)).gold
    ∧ 0 ≤ (togglePause (initialState gamePath)).gold
    ∧ 0 ≤ (activatePlayerAttack (initialState gamePath)).gold
    ∧ 0 ≤ (tick 1000 1 (initialState gamePath)).gold
    ∧ ((initialState gamePath).gold
          < (((towerTypes (initialState gamePath).selectedTowerType).cost : ℕ) : ℤ) →
        (placeTower ⟨0, 0, 0⟩ (initialState gamePath)).gold = (initialState gamePath).gold) :=
  C3_amended_gold_nonneg ⟨0, 0, 0⟩ 1000 1 (initialState gamePath) (by decide)

/-- C4 (confirmed): a rejected placement — insufficient gold or an invalid
position (too close to the path, a defender or a colony) — is a complete
no-op: the resulting state is the input state, so gold, towers, colonies
and enemies are all unchanged. -/
theorem C4_rejected_placement_is_noop (pos : Vec3) (s : GameState) :
    (s.gold < ((towerTypes s.selectedTowerType).cost : ℤ) → placeTower pos s = s)
    ∧ (validPosition s pos = false → placeTower pos s = s) :=
  ⟨placeTower_insufficient pos s, placeTower_invalid pos s⟩

/-- Witness for C4: no gold (cost 40 > 0), and a position on the path. -/
theorem C4_rejected_placement_is_noop_witness :
    placeTower ⟨0, 0, 0⟩ c4PoorState = c4PoorState
    ∧ placeTower ⟨-400, 0, 0⟩ (initialState gamePath) = initialState gamePath :=
  ⟨(C4_rejected_placement_is_noop ⟨0, 0, 0⟩ c4PoorState).1 (by decide),
   (C4_rejected_placement_is_noop ⟨-400, 0, 0⟩ (initialState gamePath)).2 (by decide)⟩

end OrdinaryDefense

namespace OrdinaryDefense

/-- C5 (confirmed): starting wave n (the incremented wave number) sets
enemies-in-wave to `min (3 + n·2) 25` — in particular 5 for wave 1 — and
resets the spawned counter to 0; and once the wave is fully spawned with no
live attacker, wave completion credits a gold bonus of `25 + n·10`
(35 for wave 1) and returns to the idle state. -/
theorem C5_wave_sizing_and_completion_bonus :
    (∀ s : GameState, s.isPaused = false →
      (startNextWave s).wave = s.wave + 1
      ∧ (startNextWave s).enemiesInWave = min (3 + (s.wave + 1) * 2) 25
      ∧ (startNextWave s).enemiesSpawned = 0)
    ∧ (∀ s : GameState, s.isPaused = false → s.wave = 0 →
      (startNextWave s).enemiesInWave = 5)
    ∧ (∀ s : GameState, s.gameStarted = true → s.enemiesInWave ≤ s.enemiesSpawned →
      s.enemies = [] →
      (checkWaveComplete s).gold = s.gold + (25 + (s.wave : ℤ) * 10)
      ∧ (checkWaveComplete s).score = s.score + (25 + s.wave * 10) * 5
      ∧ (checkWaveComplete s).gameStarted = false)
    ∧ (∀ s : GameState, s.gameStarted = true → s.enemiesInWave ≤ s.enemiesSpawned →
      s.enemies = [] → s.wave = 1 →
      (checkWaveComplete s).gold = s.gold + 35) := by
  have hstart : ∀ s : GameState, s.isPaused = false →
      (startNextWave s).wave = s.wave + 1
      ∧ (startNextWave s).enemiesInWave = min (3 + (s.wave + 1) * 2) 25
      ∧ (startNextWave s).enemiesSpawned = 0 := by
    intro s hp
    have hpause : ¬ s.isPaused = true := by rw [hp]; simp
    unfold startNextWave
    rw [if_neg hpause]
    exact ⟨rfl, rfl, rfl⟩
  have hcomplete : ∀ s : GameState, s.gameStarted = true →
      s.enemiesInWave ≤ s.enemiesSpawned → s.enemies = [] →
      (checkWaveComplete s).gold = s.gold + (25 + (s.wave : ℤ) * 10)
      ∧ (checkWaveComplete s).score = s.score + (25 + s.wave * 10) * 5
      ∧ (checkWaveComplete s).gameStarted = false := by
    intro s hg hsp hemp
    unfold checkWaveComplete
    rw [if_pos ⟨hg, hsp, hemp⟩]
    refine ⟨?_, rfl, rfl⟩
    show s.gold + ((25 + s.wave * 10 : ℕ) : ℤ) = _
    push_cast
    ring
  refine ⟨hstart, ?_, hcomplete, ?_⟩
  · intro s hp hw
    rw [(hstart s hp).2.1, hw]
    decide
  · intro s hg hsp hemp hw
    rw [(hcomplete s hg hsp hemp).1, hw]
    norm_num

/-- Witness for C5 at concrete states (wave start from the initial state,
completion of a fully spawned wave 1). -/
theorem C5_wave_sizing_and_completion_bonus_witness :
    ((startNextWave c1State).wave = c1State.wave + 1
      ∧ (startNextWave c1State).enemiesInWave = min (3 + (c1State.wave + 1) * 2) 25
      ∧ (startNextWave c1State).enemiesSpawned = 0)
    ∧ (startNextWave (initialState gamePath)).enemiesInWave = 5
    ∧ (checkWaveComplete c5DoneState).gold
        = c5DoneState.gold + (25 + (c5DoneState.wave : ℤ) * 10)
    ∧ (checkWaveComplete c5DoneState).gold = c5DoneState.gold + 35 :=
  ⟨C5_wave_sizing_and_completion_bonus.1 c1State (by decide),
   C5_wave_sizing_and_completion_bonus.2.1 (initialState gamePath) (by decide) (by decide),
   (C5_wave_sizing_and_completion_bonus.2.2.1 c5DoneState (by decide) (by decide) (by decide)).1,
   C5_wave_sizing_and_completion_bonus.2.2.2 c5DoneState (by decide) (by decide) (by decide) (by decide)⟩

/-- C6 (confirmed): a defender-fired projectile starts at the turret
position raised by 0.5 with direction the normalized vector to the target
position at fire time, and every unpaused projectile update advances each
surviving projectile by exactly its stored direction scaled by its speed —
direction, speed, damage and target are never changed after firing. -/
theorem C6_projectile_direction_fixed_at_fire_time :
    (∀ (t : Tower) (targetEid : ℕ) (targetPos : Vec3),
      (fireProjectile t targetEid targetPos).direction
        = Vec3.normalize (targetPos.sub { t.pos with y := t.pos.y + 0.5 })
      ∧ (fireProjectile t targetEid targetPos).pos = { t.pos with y := t.pos.y + 0.5 })
    ∧ (∀ s : GameState, s.isPaused = false →
      ∀ x ∈ (updateProjectiles s).projectiles,
        ∃ q ∈ s.projectiles, x.direction = q.direction
          ∧ x.pos = q.pos.add (q.direction.scale q.speed)
          ∧ x.speed = q.speed ∧ x.target = q.target ∧ x.damage = q.damage) := by
  constructor
  · intro t targetEid targetPos
    exact ⟨rfl, rfl⟩
  · intro s hp x hx
    obtain ⟨q, hq, hxq, _⟩ := updateProjectiles_kept s hp x hx
    subst hxq
    exact ⟨q, hq, rfl, rfl, rfl, rfl, rfl⟩

/-- Witness for C6: the surviving projectile of one update of the dangling
projectile state is the advanced version of the input projectile. -/
theorem C6_projectile_direction_fixed_at_fire_time_witness :
    ∃ q ∈ c7State.projectiles, (moveProj c7Proj).direction = q.direction
      ∧ (moveProj c7Proj).pos = q.pos.add (q.direction.scale q.speed)
      ∧ (moveProj c7Proj).speed = q.speed ∧ (moveProj c7Proj).target = q.target
      ∧ (moveProj c7Proj).damage = q.damage :=
  C6_projectile_direction_fixed_at_fire_time.2 c7State (by decide)
    (moveProj c7Proj) (by decide)

/-- C7 (confirmed): no surviving projectile ever has age above the
time-to-live of 100; concretely, a projectile whose hit test never succeeds
(its target id is not registered) is still present with age 100 after 100
updates and removed by the 101st, with the attacker registry untouched and
no effect notification emitted. -/
theorem C7_projectile_ttl_expiry :
    (∀ s : GameState, s.isPaused = false →
      ∀ x ∈ (updateProjectiles s).projectiles, x.life ≤ 100)
    ∧ ((updateProjectiles^[100] c7State).projectiles.map Projectile.life = [100])
    ∧ ((updateProjectiles^[101] c7State).projectiles = [])
    ∧ ((updateProjectiles^[101] c7State).enemies = c7State.enemies)
    ∧ ((updateProjectiles^[101] c7State).effects = []) := by
  refine ⟨?_, by decide, by decide, by decide, by decide⟩
  intro s hp x hx
  obtain ⟨q, _, _, h⟩ := updateProjectiles_kept s hp x hx
  exact h

/-- Witness for C7: the advanced dangling projectile respects the bound. -/
theorem C7_projectile_ttl_expiry_witness : (moveProj c7Proj).life ≤ 100 :=
  C7_projectile_ttl_expiry.1 c7State (by decide) (moveProj c7Proj) (by decide)

end OrdinaryDefense

namespace OrdinaryDefense

/-- C8 (confirmed): on an unpaused enemy update, lives drop by exactly one
per attacker whose path index has reached the final waypoint — regardless
of its health — gold is credited only for dead attackers that are NOT at
the final waypoint (so end-of-path attackers yield no reward), and every
attacker remaining in the registry was strictly before the final waypoint,
so every end-of-path attacker is removed. -/
theorem C8_end_of_path_costs_one_life (now : ℤ) (s : GameState)
    (hp : s.isPaused = false) :
    ((updateEnemies now s).lives
        = s.lives - (s.enemies.filter fun e => !decide (e.pathIndex < s.path.length - 1)).length)
    ∧ ((updateEnemies now s).gold
        = s.gold + ((s.enemies.filter fun e =>
            decide (e.pathIndex < s.path.length - 1) && decide (e.health ≤ 0)).map
            fun e => (e.reward : ℤ)).sum)
    ∧ (∀ x ∈ (updateEnemies now s).enemies,
        ∃ e ∈ s.enemies, e.pathIndex < s.path.length - 1 ∧ 0 < e.health
          ∧ x.eid = e.eid ∧ x.health = e.health) := by
  obtain ⟨h1, h2, _, h4⟩ := updateEnemies_spec now s hp
  exact ⟨h1, h2, h4⟩

/-- Witness for C8 at the two-attackers-at-the-end state: both healthy
attackers at the final waypoint cost one life each and yield no gold. -/
theorem C8_end_of_path_costs_one_life_witness :
    ((updateEnemies 1000 c3State).lives
        = c3State.lives - (c3State.enemies.filter fun e =>
            !decide (e.pathIndex < c3State.path.length - 1)).length)
    ∧ ((updateEnemies 1000 c3State).gold
        = c3State.gold + ((c3State.enemies.filter fun e =>
            decide (e.pathIndex < c3State.path.length - 1) && decide (e.health ≤ 0)).map
            fun e => (e.reward : ℤ)).sum)
    ∧ (∀ x ∈ (updateEnemies 1000 c3State).enemies,
        ∃ e ∈ c3State.enemies, e.pathIndex < c3State.path.length - 1 ∧ 0 < e.health
          ∧ x.eid = e.eid ∧ x.health = e.health) :=
  C8_end_of_path_costs_one_life 1000 c3State (by decide)

/-- C9 (confirmed): an accepted purchase of the full-map player attack
while no attacker is alive debits the full 1000 gold and does nothing
else — the resulting state differs from the input state only in gold. -/
theorem C9_player_attack_on_empty_registry (pos : Vec3) (s : GameState)
    (hp : s.isPaused = false) (hsel : s.selectedTowerType = TowerType.playerAttack)
    (hg : (1000 : ℤ) ≤ s.gold) (hv : validPosition s pos = true)
    (he : s.enemies = []) :
    placeTower pos s = { s with gold := s.gold - 1000 } := by
  obtain ⟨g, l, sc, w, eiw, esp, sel, gs, ip, tw, en, pr, ep, co, pa, ne, ef⟩ := s
  dsimp only at hsel hp hg hv he ⊢
  subst hsel
  subst hp
  subst he
  simp only [placeTower, towerTypes, activatePlayerAttack, hv,
    Bool.false_eq_true, if_false, if_true, List.isEmpty_nil, ite_true, ite_false]
  rw [if_pos (show ((1000:ℕ):ℤ) ≤ g from by exact_mod_cast hg)]
  norm_num

/-- Witness for C9: buying the player attack with 1200 gold, a valid
position and no enemies leaves everything but gold unchanged. -/
theorem C9_player_attack_on_empty_registry_witness :
    placeTower ⟨0, 0, 50⟩ c9State = { c9State with gold := c9State.gold - 1000 } :=
  C9_player_attack_on_empty_registry ⟨0, 0, 50⟩ c9State (by decide) (by decide)
    (by decide) (by decide) (by decide)

/-- C10 (confirmed): score never decreases under any public operation, and
it is credited exactly at 15× an attacker's reward per kill (by projectile
damage or by the player attack) and 5× the wave bonus on wave completion;
every other operation leaves score unchanged. -/
theorem C10_score_monotone_and_credit_shape (s : GameState) (pos : Vec3)
    (now : ℤ) (rand : ℚ) :
    s.score ≤ (placeTower pos s).score
    ∧ (startNextWave s).score = s.score
    ∧ (togglePause s).score = s.score
    ∧ s.score ≤ (tick now rand s).score
    ∧ (updateTowers now s).score = s.score
    ∧ (updateProjectiles s).score = s.score
    ∧ (updateEnemyProjectiles s).score = s.score
    ∧ (spawnEnemies rand s).score = s.score
    ∧ (checkWaveComplete s).score = s.score +
        (if s.gameStarted ∧ s.enemiesInWave ≤ s.enemiesSpawned ∧ s.enemies = []
         then (25 + s.wave * 10) * 5 else 0)
    ∧ (s.isPaused = false →
        ((updateEnemies now s).score = s.score + ((s.enemies.filter fun e =>
            decide (e.pathIndex < s.path.length - 1) && decide (e.health ≤ 0)).map
            fun e => e.reward * 15).sum)
        ∧ (activatePlayerAttack s).score = s.score +
            (if s.enemies.isEmpty then 0 else (s.enemies.map fun e => e.reward * 15).sum)) := by
  refine ⟨placeTower_score_mono pos s, ?_, rfl, tick_score_mono now rand s,
    (updateTowers_fields now s).2.2.1, (updateProjectiles_fields s).2.2.1,
    (updateEnemyProjectiles_fields s).2.2.1, (spawnEnemies_fields rand s).2.2,
    checkWaveComplete_score s, ?_⟩
  · unfold startNextWave
    split <;> rfl
  · intro hp
    exact ⟨(updateEnemies_spec now s hp).2.2.1, activatePlayerAttack_score_eq s hp⟩

/-- Witness for C10: the kill-credit equation evaluated at the Scenario B
state after the third hit (one dead attacker worth 17, so 255 score). -/
theorem C10_score_monotone_and_credit_shape_witness :
    ((updateEnemies 4000 c2s3).score = c2s3.score + ((c2s3.enemies.filter fun e =>
        decide (e.pathIndex < c2s3.path.length - 1) && decide (e.health ≤ 0)).map
        fun e => e.reward * 15).sum)
    ∧ (activatePlayerAttack c2s3).score = c2s3.score +
        (if c2s3.enemies.isEmpty then 0 else (c2s3.enemies.map fun e => e.reward * 15).sum) :=
  (C10_score_monotone_and_credit_shape c2s3 ⟨0, 0, 0⟩ 4000 1).2.2.2.2.2.2.2.2.2 (by decide)

end OrdinaryDefense
